import Mathlib

/-!
The style-property panel of gtkparasite (`src/style-list.c`).

A shallow embedding of the CSS source-snippet cache, the value extraction, the
location formatting, the refresh cycle and the signal wiring of
`ParasiteStyleList`, followed by theorems about them.

Conventions of the embedding

* a C string (`gchar *`, NUL-terminated) is a `List Char` (`gstring`); a string
  vector (`gchar **`, NULL-terminated) is a `List gstring`, and a possibly-NULL
  vector is an `Option (List gstring)` with `none` for the NULL pointer;
* `guint` values are natural numbers below `2 ^ 32`; every `guint` addition of
  the source is written with an explicit `% 2 ^ 32`;
* object pointers (`GtkWidget *`, `ParasiteStyleList *`) are natural numbers;
* the collaborators that the file only calls (file system, style engine) are
  fields of `Env`; the GLib string functions are embedded from their GLib
  definitions.
-/

namespace StyleList

/-- A NUL-terminated C string. -/
abbrev gstring := List Char

/-- The modulus of `guint` arithmetic. -/
def GUINT_MOD : Nat := 2 ^ 32

/-! ## GLib string functions used by the file -/

/-- GLib `g_ascii_isspace`: space, form feed, newline, carriage return,
horizontal tab and vertical tab. -/
def g_ascii_isspace (c : Char) : Bool :=
  c == ' ' || c == Char.ofNat 12 || c == Char.ofNat 10 || c == Char.ofNat 13
    || c == Char.ofNat 9 || c == Char.ofNat 11

/-- GLib `g_strchug`: removes leading whitespace. -/
def g_strchug (s : gstring) : gstring :=
  s.dropWhile g_ascii_isspace

/-- GLib `g_strchomp`: removes trailing whitespace (scans from the end while
the byte is a space). -/
def g_strchomp (s : gstring) : gstring :=
  (s.reverse.dropWhile g_ascii_isspace).reverse

/-- GLib `g_strstrip(s)` is `g_strchomp (g_strchug (s))`. -/
def g_strstrip (s : gstring) : gstring :=
  g_strchomp (g_strchug s)

/-- The scanning loop of GLib `g_strsplit_set`: `current` is the token being
accumulated, `n_tokens` the number of tokens already emitted.  A delimiter ends
the current token only while `n_tokens + 1 < max_tokens`; `limit = none` stands
for "no maximum". -/
def strsplit_set_loop (delimiters : gstring) (limit : Option Nat) :
    gstring → gstring → Nat → List gstring
  | [], current, _ => [current]
  | c :: s, current, n_tokens =>
    if delimiters.contains c && (match limit with
        | none => true
        | some m => decide (n_tokens + 1 < m)) then
      current :: strsplit_set_loop delimiters limit s [] (n_tokens + 1)
    else
      strsplit_set_loop delimiters limit s (current ++ [c]) n_tokens

/-- GLib `g_strsplit_set (string, delimiters, max_tokens)`.  The empty string
gives the empty vector; otherwise the string is cut at every character of
`delimiters`, empty tokens kept; with `max_tokens >= 1` at most `max_tokens`
tokens are produced, the last one holding the unsplit remainder.  For
`max_tokens < 1` GLib documents that "the string is split completely" (its
implementation takes `G_MAXINT` as the maximum, which a string shorter than
2 GiB cannot reach); the embedding then uses no maximum. -/
def g_strsplit_set (string delimiters : gstring) (max_tokens : Int) : List gstring :=
  if string = [] then []
  else strsplit_set_loop delimiters
    (if max_tokens < 1 then none else some max_tokens.toNat) string [] 0

/-- The search loop of GLib `g_strsplit` for the non-empty delimiter
`d :: ds`: the string is cut at each occurrence of the delimiter while
`n_tokens + 1 < max_tokens` (`limit = none`: no maximum). -/
def strsplit_loop (d : Char) (ds : gstring) (limit : Option Nat) :
    gstring → gstring → Nat → List gstring
  | [], current, _ => [current]
  | c :: s, current, n_tokens =>
    if decide ((d :: ds) <+: (c :: s)) && (match limit with
        | none => true
        | some m => decide (n_tokens + 1 < m)) then
      current :: strsplit_loop d ds limit (s.drop ds.length) [] (n_tokens + 1)
    else
      strsplit_loop d ds limit s (current ++ [c]) n_tokens
termination_by s => s.length
decreasing_by
  all_goals simp only [List.length_cons, List.length_drop]
  all_goals omega

/-- GLib `g_strsplit (string, delimiter, max_tokens)`.  GLib starts with
`g_return_val_if_fail (delimiter[0] != '\0', NULL)`: an empty delimiter is
rejected and the NULL pointer is returned.  Otherwise the empty string gives the
empty vector and a non-empty string is cut at the occurrences of `delimiter`
(`max_tokens < 1`: completely). -/
def g_strsplit (string delimiter : gstring) (max_tokens : Int) : Option (List gstring) :=
  match delimiter with
  | [] => none
  | d :: ds =>
    if string = [] then some []
    else some (strsplit_loop d ds (if max_tokens < 1 then none else some max_tokens.toNat)
      string [] 0)

/-- GLib `g_strv_length`: the number of strings of a vector; for the NULL
pointer its `g_return_val_if_fail (str_array != NULL, 0)` answers 0. -/
def g_strv_length (str_array : Option (List gstring)) : Nat :=
  match str_array with
  | none => 0
  | some v => v.length

/-- GLib `g_strdup_printf ("%u", n)`: the decimal digits of an unsigned. -/
def printf_u (n : Nat) : gstring :=
  Nat.toDigits 10 n

/-! ## `strip_property` (lines 185-200) -/

/-- Source `strip_property`: split on `":;"` into at most 3 tokens; the empty
string when `split[0]` or `split[1]` is NULL, else a copy of `split[1]`. -/
def strip_property (property : gstring) : gstring :=
  match g_strsplit_set property ":;".toList 3 with
  | [] => []
  | [_] => []
  | _ :: v :: _ => v

/-! ## The line loop of `parasite_style_get_css_content` (lines 233-246) -/

/-- The `for` loop of lines 236-246 entered with counter `i` and accumulated
text `property`: while `i < end_line + 1` (a `guint` sum) and
`i < contents_lines`, append the stripped line `contents[i]` and increment
`i`. -/
def css_loop (contents : List gstring) (contents_lines end_line : Nat) (i : Nat)
    (property : gstring) : gstring :=
  if i < (end_line + 1) % GUINT_MOD ∧ i < contents_lines then
    css_loop contents contents_lines end_line ((i + 1) % GUINT_MOD)
      (property ++ g_strstrip (contents.getD i []))
  else property
termination_by (end_line + 1) % GUINT_MOD - i
decreasing_by
  simp only [GUINT_MOD] at *
  omega

/-- The text `property` that `parasite_style_get_css_content` hands to
`strip_property` (lines 233-246): `contents_lines = g_strv_length (contents)`,
`property = ""`, then the loop from `start_line`. -/
def css_property (contents : Option (List gstring)) (start_line end_line : Nat) : gstring :=
  css_loop (contents.getD []) (g_strv_length contents) end_line start_line []

/-! ## Collaborators and state -/

/-- A `GFile`; `g_file_hash` and `g_file_equal` identify it by its URI. -/
structure GFile where
  uri : String
deriving DecidableEq

/-- What the file reads of a `GtkCssSection`: `gtk_css_section_get_start_line`,
`gtk_css_section_get_end_line` (both `guint`) and `gtk_css_section_get_file`
(`none` for NULL). -/
structure GtkCssSection where
  start_line : Nat
  end_line : Nat
  file : Option GFile

/-- The two signals the panel connects to. -/
inductive Signal where
  | style_updated
  | state_flags_changed
deriving DecidableEq

/-- The two signal callbacks of the file (lines 354-367). -/
inductive Callback where
  | widget_style_updated
  | widget_state_flags_changed
deriving DecidableEq

/-- One signal connection made by `g_signal_connect (object, signal, callback,
data)`. -/
structure Handler where
  object : Nat
  signal : Signal
  callback : Callback
  data : Nat
deriving DecidableEq

/-- One `g_object_weak_ref (object, disconnect_each_other, data)`. -/
structure WeakRef where
  object : Nat
  data : Nat
deriving DecidableEq

/-- One row of the `GtkListStore`: the columns NAME, VALUE, LOCATION (`none`
for a NULL string). -/
structure Row where
  name : gstring
  value : Option gstring
  location : Option gstring
deriving DecidableEq

/-- The collaborators at the time of one call: the file system
(`g_file_load_contents`, `none` when it returns FALSE; `g_file_query_info`
giving the display name, `none` when it returns NULL) and the style engine
(`gtk_style_context_get_section` on the context of a widget to which the given
classes were added, `none` for NULL). -/
structure Env where
  g_file_load_contents : GFile → Option gstring
  g_file_query_info : GFile → Option gstring
  gtk_style_context_get_section : Nat → List gstring → gstring → Option GtkCssSection

/-- The object `ParasiteStyleList` with its private data (lines 34-40), the
signal connections and weak references of the process, and two counters that
only observe: `file_reads` logs every call of `g_file_load_contents`,
`fill_runs` counts the entries into `parasite_style_list_fill`. -/
structure ParasiteStyleList where
  addr : Nat
  css_files : List (GFile × Option (List gstring))
  model : List Row
  widget : Option Nat
  style_classes : Option (List gstring)
  handlers : List Handler
  weak_refs : List WeakRef
  file_reads : List GFile
  fill_runs : Nat

/-- Source `known_properties` (lines 42-98). -/
def known_properties : List gstring :=
  (["-adwaita-border-gradient",
    "-adwaita-focus-border-color",
    "-adwaita-focus-border-dashes",
    "-adwaita-focus-border-radius",
    "-adwaita-progressbar-pattern",
    "-adwaita-selected-tab-color",
    "background-clip",
    "background-color",
    "background-image",
    "background-origin",
    "background-repeat",
    "border-bottom-color",
    "border-bottom-left-radius",
    "border-bottom-right-radius",
    "border-bottom-style",
    "border-bottom-width",
    "border-image-repeat",
    "border-image-slice",
    "border-image-source",
    "border-image-width",
    "border-left-color",
    "border-left-style",
    "border-left-width",
    "border-right-color",
    "border-right-style",
    "border-right-width",
    "border-top-color",
    "border-top-left-radius",
    "border-top-right-radius",
    "border-top-style",
    "border-top-width",
    "box-shadow",
    "color",
    "engine",
    "font-family",
    "font-size",
    "font-style",
    "font-variant",
    "font-weight",
    "gtk-key-bindings",
    "icon-shadow",
    "margin-bottom",
    "margin-left",
    "margin-right",
    "margin-top",
    "outline-color",
    "outline-offset",
    "outline-style",
    "outline-width",
    "padding-bottom",
    "padding-left",
    "padding-right",
    "padding-top",
    "text-shadow",
    "transition"] : List String).map String.toList

/-- Source `parasite_style_list_init` (lines 127-177): empty hash table, empty
list store, no widget, no style classes. -/
def parasite_style_list_init (addr : Nat) : ParasiteStyleList :=
  ⟨addr, [], [], none, none, [], [], [], 0⟩

/-- GLib `g_hash_table_lookup`: the value stored under an equal key, NULL when
there is none (a stored NULL value is returned as NULL too). -/
def g_hash_table_lookup (table : List (GFile × Option (List gstring))) (key : GFile) :
    Option (List gstring) :=
  match table.find? (fun e => e.1 = key) with
  | some e => e.2
  | none => none

/-- GLib `g_hash_table_insert`: the value of an equal key is replaced,
otherwise the pair is added. -/
def g_hash_table_insert (table : List (GFile × Option (List gstring))) (key : GFile)
    (value : Option (List gstring)) : List (GFile × Option (List gstring)) :=
  (key, value) :: table.filter (fun e => e.1 ≠ key)

/-! ## `parasite_style_get_css_content` (lines 202-252) -/

/-- Lines 214-231: the cached vector of the file, or on a miss (lookup gives
NULL) the file is loaded and split on `"\n\r"`, or `g_strsplit ("", "", -1)`
when loading fails, and the result is inserted in `css_files`. -/
def css_contents (env : Env) (self : ParasiteStyleList) (file : GFile) :
    Option (List gstring) × ParasiteStyleList :=
  match g_hash_table_lookup self.css_files file with
  | some contents => (some contents, self)
  | none =>
    let contents :=
      match env.g_file_load_contents file with
      | some tmp => some (g_strsplit_set tmp "\n\r".toList (-1))
      | none => g_strsplit "".toList "".toList (-1)
    (contents, { self with
      css_files := g_hash_table_insert self.css_files file contents
      file_reads := self.file_reads ++ [file] })

/-- Source `parasite_style_get_css_content`: the value and the panel after the
call. -/
def parasite_style_get_css_content (env : Env) (self : ParasiteStyleList) (file : GFile)
    (start_line end_line : Nat) : gstring × ParasiteStyleList :=
  let r := css_contents env self file
  (strip_property (css_property r.1 start_line end_line), r.2)

/-! ## `parasite_style_list_fill` (lines 254-352) -/

/-- Lines 315-327: `g_strdup_printf ("%s:%u-%u", path, start_line + 1,
end_line + 1)` when `end_line != start_line`, else `g_strdup_printf ("%s:%u",
path, start_line + 1)`; the sums are `guint` sums. -/
def location_string (path : gstring) (start_line end_line : Nat) : gstring :=
  if end_line ≠ start_line then
    path ++ ":".toList ++ printf_u ((start_line + 1) % GUINT_MOD) ++ "-".toList
      ++ printf_u ((end_line + 1) % GUINT_MOD)
  else
    path ++ ":".toList ++ printf_u ((start_line + 1) % GUINT_MOD)

/-- The body of the loop of lines 279-348 for one property name: query the
section, compute `value` and `location`, append the row. -/
def fill_property (env : Env) (widget : Nat) (classes : List gstring)
    (self : ParasiteStyleList) (name : gstring) : ParasiteStyleList :=
  match env.gtk_style_context_get_section widget classes name with
  | some css_section =>
    match css_section.file with
    | some file =>
      let path :=
        match env.g_file_query_info file with
        | some display_name => display_name
        | none => "<broken file>".toList
      let r := parasite_style_get_css_content env self file css_section.start_line
        css_section.end_line
      { r.2 with model := r.2.model ++
          [⟨name, some r.1,
            some (location_string path css_section.start_line css_section.end_line)⟩] }
    | none =>
      { self with model := self.model ++
          [⟨name, none,
            some (location_string "<data>".toList css_section.start_line
              css_section.end_line)⟩] }
  | none => { self with model := self.model ++ [⟨name, none, none⟩] }

/-- Lines 268-277: the classes added to the saved style context before the
properties are queried, none when `style_classes` is NULL. -/
def added_classes (self : ParasiteStyleList) : List gstring :=
  match self.style_classes with
  | some style_classes => style_classes
  | none => []

/-- Source `parasite_style_list_fill`: nothing without a widget; otherwise the
list store is cleared, the style classes (if any) are added to the saved
context, and one row per known property is appended. -/
def parasite_style_list_fill (env : Env) (self : ParasiteStyleList) : ParasiteStyleList :=
  let self := { self with fill_runs := self.fill_runs + 1 }
  match self.widget with
  | none => self
  | some widget =>
    known_properties.foldl (fill_property env widget (added_classes self))
      { self with model := [] }

/-! ## Signal wiring and the public operations (lines 354-418) -/

/-- Source `disconnect_each_other`:
`g_signal_handlers_disconnect_matched (still_alive, G_SIGNAL_MATCH_DATA, ..,
for_science)` removes every handler on `still_alive` whose data is
`for_science`, and `g_object_weak_unref` removes one matching weak
reference. -/
def disconnect_each_other (self : ParasiteStyleList) (still_alive for_science : Nat) :
    ParasiteStyleList :=
  { self with
    handlers := self.handlers.filter
      (fun h => !(h.object = still_alive && h.data = for_science))
    weak_refs := self.weak_refs.erase ⟨still_alive, for_science⟩ }

/-- Source `parasite_style_list_set_widget`; widgets are given by their address
and every address of the embedding is a widget, so that the two
`g_return_if_fail` checks pass. -/
def parasite_style_list_set_widget (env : Env) (self : ParasiteStyleList) (widget : Nat) :
    ParasiteStyleList :=
  let self1 :=
    match self.widget with
    | some old => disconnect_each_other self old self.addr
    | none => self
  let self2 := parasite_style_list_fill env { self1 with widget := some widget }
  { self2 with
    handlers := self2.handlers ++
      [⟨widget, Signal.style_updated, Callback.widget_style_updated, self2.addr⟩,
       ⟨widget, Signal.state_flags_changed, Callback.widget_state_flags_changed, self2.addr⟩]
    weak_refs := self2.weak_refs ++ [⟨self2.addr, widget⟩, ⟨widget, self2.addr⟩] }

/-- Source `parasite_style_list_set_classes` (`classes` a string, not NULL). -/
def parasite_style_list_set_classes (env : Env) (self : ParasiteStyleList)
    (classes : gstring) : ParasiteStyleList :=
  parasite_style_list_fill env
    { self with style_classes := some (g_strsplit_set classes " ,;.\t".toList (-1)) }

/-- What a connected handler does when its signal fires: both callbacks
(`widget_style_updated`, `widget_state_flags_changed`) call
`parasite_style_list_fill` on their user data; a handler whose data is another
object leaves this panel alone. -/
def run_handler (env : Env) (self : ParasiteStyleList) (h : Handler) : ParasiteStyleList :=
  if h.data = self.addr then
    match h.callback with
    | Callback.widget_style_updated => parasite_style_list_fill env self
    | Callback.widget_state_flags_changed => parasite_style_list_fill env self
  else self

/-- Emission of `signal` on `object`: the handlers connected to that signal of
that object run in connection order. -/
def signal_emit (env : Env) (self : ParasiteStyleList) (object : Nat) (signal : Signal) :
    ParasiteStyleList :=
  (self.handlers.filter (fun h => h.object = object && h.signal = signal)).foldl
    (run_handler env) self

/-! ## Definitions that follow the words of the specification -/

/-- Specification, section 4.2: the in-order concatenation of the
whitespace-trimmed lines at every index `i` with
`start_line ≤ i ≤ end_line` and `i < length lines`. -/
def spec_joined (lines : List gstring) (start_line end_line : Nat) : gstring :=
  (((List.range lines.length).filter
      (fun i => decide (start_line ≤ i) && decide (i ≤ end_line))).map
    (fun i => g_strstrip (lines.getD i []))).flatten

/-- Specification, section 4.3: `"{path}:{start_line+1}"` when the two lines
are equal, else `"{path}:{start_line+1}-{end_line+1}"`, with the line numbers
as integers (zero-indexed shown 1-indexed). -/
def spec_location (path : gstring) (start_line end_line : Nat) : gstring :=
  if start_line = end_line then
    path ++ ":".toList ++ Nat.toDigits 10 (start_line + 1)
  else
    path ++ ":".toList ++ Nat.toDigits 10 (start_line + 1) ++ "-".toList
      ++ Nat.toDigits 10 (end_line + 1)

/-- A character that is neither `':'` nor `';'`. -/
def not_delimiter (c : Char) : Bool :=
  !(":;".toList.contains c)

/-- Puts a split back together: the parts interleaved with the given
separator characters. -/
def rejoin : List gstring → List Char → gstring
  | [], _ => []
  | [p], _ => p
  | p :: ps, [] => p ++ rejoin ps []
  | p :: ps, d :: ds => p ++ d :: rejoin ps ds

/-- The operations on the panel that the host application and the toolkit can
perform. -/
inductive Op where
  | set_widget (widget : Nat)
  | set_classes (classes : gstring)
  | emit (object : Nat) (signal : Signal)

/-- One operation, performed with the collaborators as they are at that time. -/
def step (self : ParasiteStyleList) (x : Env × Op) : ParasiteStyleList :=
  match x.2 with
  | Op.set_widget widget => parasite_style_list_set_widget x.1 self widget
  | Op.set_classes classes => parasite_style_list_set_classes x.1 self classes
  | Op.emit object signal => signal_emit x.1 self object signal

/-- A run: the operations performed one after the other. -/
def run (self : ParasiteStyleList) (xs : List (Env × Op)) : ParasiteStyleList :=
  xs.foldl step self

/-- The display path of a section as lines 296-313 choose it: the display
name of the file, `"<broken file>"` when the file information is missing,
`"<data>"` when the section has no file. -/
def display_path (env : Env) (css_section : GtkCssSection) : gstring :=
  match css_section.file with
  | some file =>
    match env.g_file_query_info file with
    | some display_name => display_name
    | none => "<broken file>".toList
  | none => "<data>".toList

/-- The LOCATION column that the refresh gives to a property name: NULL when
the style engine has no section for it, else the formatted location. -/
def row_location (env : Env) (widget : Nat) (classes : List gstring) (name : gstring) :
    Option gstring :=
  match env.gtk_style_context_get_section widget classes name with
  | some css_section =>
    some (location_string (display_path env css_section) css_section.start_line
      css_section.end_line)
  | none => none

/-- Whether the refresh gives a (non-NULL) VALUE to a property name: only when
the style engine has a section for it and the section has a file. -/
def row_has_value (env : Env) (widget : Nat) (classes : List gstring) (name : gstring) :
    Bool :=
  match env.gtk_style_context_get_section widget classes name with
  | some css_section => css_section.file.isSome
  | none => false

/-- What one appended row must look like for a property name. -/
def RowOk (env : Env) (widget : Nat) (classes : List gstring) (name : gstring)
    (row : Row) : Prop :=
  row.name = name ∧ row.location = row_location env widget classes name ∧
    row.value.isSome = row_has_value env widget classes name

/-- The part of the panel that the cache and the list store do not touch. -/
def wiring_view (self : ParasiteStyleList) :
    Nat × Option Nat × Option (List gstring) × List Handler × List WeakRef :=
  (self.addr, self.widget, self.style_classes, self.handlers, self.weak_refs)

/-- The two connections that `parasite_style_list_set_widget` makes. -/
def connections (addr widget : Nat) : List Handler :=
  [⟨widget, Signal.style_updated, Callback.widget_style_updated, addr⟩,
   ⟨widget, Signal.state_flags_changed, Callback.widget_state_flags_changed, addr⟩]

/-- The connections of a panel that observes `widget`, none without widget. -/
def connections_of (addr : Nat) (widget : Option Nat) : List Handler :=
  match widget with
  | some w => connections addr w
  | none => []

/-- A file system on which every read fails and a style engine without any
section. -/
def env_unreadable : Env :=
  ⟨fun _ => none, fun _ => none, fun _ _ _ => none⟩

/-- A file system whose files all hold `"a:b"`, and a style engine without any
section. -/
def env_readable : Env :=
  ⟨fun _ => some "a:b".toList, fun _ => some "x.css".toList, fun _ _ _ => none⟩

/-- A style engine that answers every property with the section of lines 4..4
without file (a programmatic rule). -/
def env_data_sections : Env :=
  ⟨fun _ => none, fun _ => none, fun _ _ _ => some ⟨4, 4, none⟩⟩

/-- The panel after one request for the snippet of file `f` on a file system
whose reads fail, starting from a fresh panel. -/
def after_failed_read : ParasiteStyleList :=
  (parasite_style_get_css_content env_unreadable (parasite_style_list_init 0) ⟨"f"⟩ 0 0).2

/-- The connections of the process are exactly those of the panel on the
widget it observes. -/
def Wired (self : ParasiteStyleList) : Prop :=
  self.handlers = connections_of self.addr self.widget

/-- The panel before `parasite_style_list_set_widget` fills it: the old widget
(if any) disconnected, the new one stored (lines 388-391). -/
def retargeted (self : ParasiteStyleList) (widget : Nat) : ParasiteStyleList :=
  { (match self.widget with
      | some old => disconnect_each_other self old self.addr
      | none => self) with widget := some widget }

/-! ## Lemmas on the GLib string functions -/

theorem strsplit_set_loop_open (ds : gstring) (m : Nat) (s : gstring) :
    ∀ (cur : gstring) (n : Nat), n + 1 < m →
      strsplit_set_loop ds (some m) s cur n =
        match s.dropWhile (fun c => !decide (c ∈ ds)) with
        | [] => [cur ++ s]
        | _ :: rest =>
          (cur ++ s.takeWhile (fun c => !decide (c ∈ ds))) ::
            strsplit_set_loop ds (some m) rest [] (n + 1) := by
  induction s with
  | nil => intro cur n _; simp [strsplit_set_loop]
  | cons c s ih =>
    intro cur n hn
    by_cases hc : c ∈ ds
    · simp [strsplit_set_loop, hc, hn, List.dropWhile_cons, List.takeWhile_cons]
    · simp [strsplit_set_loop, hc, ih (cur ++ [c]) n hn, List.dropWhile_cons,
        List.takeWhile_cons]

theorem strsplit_set_loop_closed (ds : gstring) (m : Nat) (s : gstring) :
    ∀ (cur : gstring) (n : Nat), ¬ (n + 1 < m) →
      strsplit_set_loop ds (some m) s cur n = [cur ++ s] := by
  induction s with
  | nil => intro cur n _; simp [strsplit_set_loop]
  | cons c s ih =>
    intro cur n hn
    rw [strsplit_set_loop]
    simp only [hn, decide_False, Bool.and_false, Bool.false_eq_true, if_false]
    rw [ih (cur ++ [c]) n hn]
    simp

theorem not_delimiter_eq :
    not_delimiter = fun c => !decide (c ∈ ":;".toList) := by
  funext c
  simp [not_delimiter]

theorem split3_eq (text : gstring) :
    g_strsplit_set text ":;".toList 3 =
      if text = [] then []
      else
        match text.dropWhile not_delimiter with
        | [] => [text]
        | _ :: rest =>
          text.takeWhile not_delimiter ::
            (match rest.dropWhile not_delimiter with
              | [] => [rest]
              | _ :: rest2 => [rest.takeWhile not_delimiter, rest2]) := by
  unfold g_strsplit_set
  by_cases h : text = []
  · simp [h]
  · simp only [h, if_false]
    have h3 : ¬ ((3 : Int) < 1) := by decide
    simp only [h3, if_false]
    have h3n : (3 : Int).toNat = 3 := rfl
    rw [h3n, strsplit_set_loop_open _ 3 text [] 0 (by decide), not_delimiter_eq]
    cases h1 : text.dropWhile (fun c => !decide (c ∈ ":;".toList)) with
    | nil => simp
    | cons d rest =>
      simp only [List.nil_append]
      rw [strsplit_set_loop_open _ 3 rest [] 1 (by decide)]
      cases h2 : rest.dropWhile (fun c => !decide (c ∈ ":;".toList)) with
      | nil => simp
      | cons d2 rest2 =>
        simp only [List.nil_append]
        rw [strsplit_set_loop_closed _ 3 rest2 [] 2 (by decide)]
        simp

theorem css_loop_eq (v : List gstring) (e : Nat) (i : Nat) (p : gstring) :
    css_loop v v.length e i p =
      p ++ (((v.take ((e + 1) % GUINT_MOD)).drop i).map g_strstrip).flatten := by
  induction i, p using css_loop.induct v v.length e with
  | case1 i p hc ih =>
    rw [css_loop, if_pos hc, ih]
    have hB : (e + 1) % GUINT_MOD < GUINT_MOD := Nat.mod_lt _ (by decide)
    have hi : (i + 1) % GUINT_MOD = i + 1 := Nat.mod_eq_of_lt (by omega)
    have hlen : i < (v.take ((e + 1) % GUINT_MOD)).length := by
      simp only [List.length_take]; omega
    rw [hi, List.drop_eq_getElem_cons hlen]
    simp [List.getD_eq_getElem?_getD, List.getElem?_eq_getElem hc.2]
  | case2 i p hc =>
    rw [css_loop, if_neg hc]
    have hlen : (v.take ((e + 1) % GUINT_MOD)).length ≤ i := by
      simp only [List.length_take]; omega
    simp [List.drop_eq_nil_of_le hlen]

theorem css_property_some (lines : List gstring) (s e : Nat) :
    css_property (some lines) s e =
      (((lines.take ((e + 1) % GUINT_MOD)).drop s).map g_strstrip).flatten := by
  have h := css_loop_eq lines e s []
  simpa [css_property, g_strv_length] using h

theorem css_property_none (s e : Nat) : css_property none s e = [] := by
  have h := css_loop_eq [] e s []
  simpa [css_property, g_strv_length] using h

theorem range_filter_between (s e n : Nat) :
    (List.range n).filter (fun i => decide (s ≤ i) && decide (i ≤ e)) =
      List.range' s (min (e + 1) n - s) := by
  induction n with
  | zero => simp
  | succ n ih =>
    rw [List.range_succ, List.filter_append, ih]
    by_cases h : s ≤ n ∧ n ≤ e
    · have h1 : min (e + 1) (n + 1) - s = (min (e + 1) n - s) + 1 := by omega
      have h2 : s + (min (e + 1) n - s) = n := by omega
      rw [h1, List.range'_concat]
      simp [h.1, h.2, h2]
    · have h1 : min (e + 1) (n + 1) - s = min (e + 1) n - s := by omega
      rw [h1]
      have h2 : (decide (s ≤ n) && decide (n ≤ e)) = false := by
        simpa using h
      simp [List.filter_cons, h2]

theorem map_getD_range' (l : List gstring) (k : Nat) :
    ∀ s, s + k ≤ l.length →
      (List.range' s k).map (fun i => l.getD i []) = (l.drop s).take k := by
  induction k with
  | zero => intro s _; simp
  | succ k ih =>
    intro s hs
    have hlt : s < l.length := by omega
    rw [List.range'_succ, List.map_cons, ih (s + 1) (by omega), List.drop_eq_getElem_cons hlt,
      List.take_succ_cons]
    simp [List.getD_eq_getElem?_getD, List.getElem?_eq_getElem hlt]

theorem spec_joined_eq (lines : List gstring) (s e : Nat) :
    spec_joined lines s e = (((lines.take (e + 1)).drop s).map g_strstrip).flatten := by
  unfold spec_joined
  rw [range_filter_between]
  have h := map_getD_range' lines (min (e + 1) lines.length - s) s
  have hmap : (List.range' s (min (e + 1) lines.length - s)).map
      (fun i => g_strstrip (lines.getD i [])) =
      ((List.range' s (min (e + 1) lines.length - s)).map (fun i => lines.getD i [])).map
        g_strstrip := by
    simp [List.map_map, Function.comp]
  rw [hmap]
  by_cases hs : s ≤ lines.length
  · rw [h (by omega), List.drop_take]
    congr 2
    apply List.take_eq_take.mpr
    simp only [List.length_drop]
    omega
  · have h0 : min (e + 1) lines.length - s = 0 := by omega
    have h1 : (lines.take (e + 1)).length ≤ s := by
      simp only [List.length_take]; omega
    rw [h0, List.drop_eq_nil_of_le h1]
    simp

/-- Whenever `end_line + 1` does not wrap, the text handed to `strip_property`
is the concatenation the specification describes. -/
theorem css_property_eq_spec_joined (lines : List gstring) (start_line end_line : Nat)
    (h : end_line + 1 < GUINT_MOD) :
    css_property (some lines) start_line end_line = spec_joined lines start_line end_line := by
  rw [css_property_some, spec_joined_eq, Nat.mod_eq_of_lt h]

theorem strip_property_eq (text : gstring) :
    strip_property text =
      ((text.dropWhile not_delimiter).drop 1).takeWhile not_delimiter := by
  unfold strip_property
  rw [split3_eq]
  by_cases h : text = []
  · simp [h]
  · simp only [h, if_false]
    cases h1 : text.dropWhile not_delimiter with
    | nil => simp
    | cons d rest =>
      simp only [List.drop_succ_cons, List.drop_zero]
      cases h2 : rest.dropWhile not_delimiter with
      | nil =>
        have h3 : rest.takeWhile not_delimiter = rest := by
          rw [List.takeWhile_eq_self_iff]
          exact List.dropWhile_eq_nil_iff.mp h2
        simp [h3]
      | cons d2 rest2 => simp

theorem split3_length (text : gstring) :
    (g_strsplit_set text ":;".toList 3).length ≤ 3 := by
  rw [split3_eq]
  by_cases h : text = []
  · simp [h]
  · simp only [h, if_false]
    cases h1 : text.dropWhile not_delimiter with
    | nil => simp
    | cons d rest =>
      simp only [List.length_cons]
      cases h2 : rest.dropWhile not_delimiter with
      | nil => simp
      | cons d2 rest2 => simp

theorem strip_property_parts (text : gstring) :
    strip_property text =
      if (g_strsplit_set text ":;".toList 3).length < 2 then []
      else (g_strsplit_set text ":;".toList 3).getD 1 [] := by
  unfold strip_property
  cases g_strsplit_set text ":;".toList 3 with
  | nil => simp
  | cons a t =>
    cases t with
    | nil => simp
    | cons b u =>
      have hu : ¬ (u.length + 1 + 1 < 2) := by omega
      simp [hu]

theorem location_string_eq_spec (path : gstring) (start_line end_line : Nat)
    (hs : start_line + 1 < GUINT_MOD) (he : end_line + 1 < GUINT_MOD) :
    location_string path start_line end_line = spec_location path start_line end_line := by
  unfold location_string spec_location printf_u
  rw [Nat.mod_eq_of_lt hs, Nat.mod_eq_of_lt he]
  by_cases h : start_line = end_line
  · simp [h]
  · have h2 : end_line ≠ start_line := fun e => h e.symm
    simp [h, h2]

/-! ## The claims -/

/-- C1 (the code departs from the claim): with one cached line `"a:b"`,
`start_line = 0` and `end_line = 4294967295` the `guint` sum `end_line + 1` of
the loop condition wraps to 0, so the loop body never runs: the text handed to
`strip_property` is empty and the returned value is empty, while the
concatenation of the lines at the indexes `0 ≤ i ≤ 4294967295`, `i < 1`, is
`"a:b"` (whose value would be `"b"`). -/
theorem C1_end_line_plus_one_wraps :
    css_property (some ["a:b".toList]) 0 4294967295 = [] ∧
    spec_joined ["a:b".toList] 0 4294967295 = "a:b".toList ∧
    (∀ env : Env,
      (parasite_style_get_css_content env
        { parasite_style_list_init 0 with css_files := [(⟨"f"⟩, some ["a:b".toList])] }
        ⟨"f"⟩ 0 4294967295).1 = []) ∧
    strip_property (spec_joined ["a:b".toList] 0 4294967295) = "b".toList := by
  have h1 : css_property (some ["a:b".toList]) 0 4294967295 = [] := by
    rw [css_property_some]
    decide
  have h2 : spec_joined ["a:b".toList] 0 4294967295 = "a:b".toList := by decide
  refine ⟨h1, h2, ?_, ?_⟩
  · intro env
    have hc : (css_contents env
        { parasite_style_list_init 0 with css_files := [(⟨"f"⟩, some ["a:b".toList])] }
        ⟨"f"⟩).1 = some ["a:b".toList] := by
      simp [css_contents, g_hash_table_lookup]
    simp only [parasite_style_get_css_content, hc, h1]
    decide
  · rw [h2]; decide

/-- C2: `strip_property` splits its text on `':'` and `';'` into at most 3
parts, the empty text giving no part; with fewer than 2 parts it returns the
empty string, otherwise the second part, which is the untrimmed text strictly
between the first delimiter and the next delimiter or the end of the text; and
the extraction over the cached lines `"color:"`, `" red;"`, range 0..1, returns
`"red"`. -/
theorem C2_strip_property_second_part (text : gstring) :
    (g_strsplit_set text ":;".toList 3).length ≤ 3 ∧
    g_strsplit_set [] ":;".toList 3 = [] ∧
    strip_property text =
      (if (g_strsplit_set text ":;".toList 3).length < 2 then []
       else (g_strsplit_set text ":;".toList 3).getD 1 []) ∧
    strip_property text =
      ((text.dropWhile not_delimiter).drop 1).takeWhile not_delimiter ∧
    (∀ env : Env,
      (parasite_style_get_css_content env
        { parasite_style_list_init 0 with
          css_files := [(⟨"f"⟩, some ["color:".toList, " red;".toList])] }
        ⟨"f"⟩ 0 1).1 = "red".toList) := by
  refine ⟨split3_length text, by decide, strip_property_parts text, strip_property_eq text, ?_⟩
  intro env
  have hc : (css_contents env
      { parasite_style_list_init 0 with
        css_files := [(⟨"f"⟩, some ["color:".toList, " red;".toList])] }
      ⟨"f"⟩).1 = some ["color:".toList, " red;".toList] := by
    simp [css_contents, g_hash_table_lookup]
  simp only [parasite_style_get_css_content, hc]
  rw [css_property_some]
  decide

/-- C3 (the code departs from the claim): for `start_line = end_line =
4294967295` the `guint` sum `start_line + 1` wraps and the location string is
`"foo.css:0"`, where the 1-indexed line number is 4294967296; for the lines
4..4 and 4..6 the code gives `"foo.css:5"` and `"foo.css:5-7"`. -/
theorem C3_line_plus_one_wraps :
    location_string "foo.css".toList 4294967295 4294967295 = "foo.css:0".toList ∧
    spec_location "foo.css".toList 4294967295 4294967295 = "foo.css:4294967296".toList ∧
    location_string "foo.css".toList 4 4 = "foo.css:5".toList ∧
    location_string "foo.css".toList 4 6 = "foo.css:5-7".toList := by
  decide

theorem css_contents_view (env : Env) (self : ParasiteStyleList) (file : GFile) :
    wiring_view (css_contents env self file).2 = wiring_view self ∧
    (css_contents env self file).2.model = self.model ∧
    (css_contents env self file).2.fill_runs = self.fill_runs := by
  unfold css_contents
  split <;> simp [wiring_view]

theorem fill_property_view (env : Env) (w : Nat) (cl : List gstring)
    (self : ParasiteStyleList) (name : gstring) :
    wiring_view (fill_property env w cl self name) = wiring_view self ∧
    (fill_property env w cl self name).fill_runs = self.fill_runs := by
  have h := css_contents_view env self
  unfold fill_property
  split
  · split
    · rename_i file _
      have hf := h file
      simp only [wiring_view, Prod.mk.injEq] at hf ⊢
      simp [parasite_style_get_css_content, hf]
    · simp [wiring_view]
  · simp [wiring_view]

theorem fill_property_model (env : Env) (w : Nat) (cl : List gstring)
    (self : ParasiteStyleList) (name : gstring) :
    ∃ row, (fill_property env w cl self name).model = self.model ++ [row] ∧
      RowOk env w cl name row := by
  cases hs : env.gtk_style_context_get_section w cl name with
  | none =>
    refine ⟨⟨name, none, none⟩, ?_, ?_⟩
    · simp only [fill_property, hs]
    · simp [RowOk, row_location, row_has_value, hs]
  | some css_section =>
    cases hf : css_section.file with
    | none =>
      refine ⟨⟨name, none, row_location env w cl name⟩, ?_, ?_⟩
      · simp only [fill_property, hs, hf, row_location, display_path]
      · simp [RowOk, row_has_value, hs, hf]
    | some file =>
      refine ⟨⟨name, some (parasite_style_get_css_content env self file
        css_section.start_line css_section.end_line).1, row_location env w cl name⟩, ?_, ?_⟩
      · simp only [fill_property, hs, hf, row_location, display_path,
          parasite_style_get_css_content, (css_contents_view env self file).2.1]
      · simp [RowOk, row_has_value, hs, hf]

theorem fill_fold_view (env : Env) (w : Nat) (cl : List gstring) (names : List gstring) :
    ∀ self : ParasiteStyleList,
      wiring_view (names.foldl (fill_property env w cl) self) = wiring_view self ∧
      (names.foldl (fill_property env w cl) self).fill_runs = self.fill_runs := by
  induction names with
  | nil => intro self; simp
  | cons name rest ih =>
    intro self
    rw [List.foldl_cons]
    have h1 := ih (fill_property env w cl self name)
    have h2 := fill_property_view env w cl self name
    exact ⟨h1.1.trans h2.1, h1.2.trans h2.2⟩

theorem fill_fold_model (env : Env) (w : Nat) (cl : List gstring) (names : List gstring) :
    ∀ self : ParasiteStyleList, ∃ rows,
      (names.foldl (fill_property env w cl) self).model = self.model ++ rows ∧
      List.Forall₂ (RowOk env w cl) names rows := by
  induction names with
  | nil => intro self; exact ⟨[], by simp, List.Forall₂.nil⟩
  | cons name rest ih =>
    intro self
    rw [List.foldl_cons]
    obtain ⟨row, hrow, hok⟩ := fill_property_model env w cl self name
    obtain ⟨rows, hrows, hall⟩ := ih (fill_property env w cl self name)
    refine ⟨row :: rows, ?_, List.Forall₂.cons hok hall⟩
    rw [hrows, hrow]
    simp

theorem fill_eq_of_widget (env : Env) (self : ParasiteStyleList) (w : Nat)
    (hw : self.widget = some w) :
    parasite_style_list_fill env self =
      known_properties.foldl (fill_property env w (added_classes self))
        { self with model := [], fill_runs := self.fill_runs + 1 } := by
  obtain ⟨addr, css, model, widget, sc, hd, wr, fr, runs⟩ := self
  simp only at hw
  subst hw
  rfl

theorem fill_eq_of_no_widget (env : Env) (self : ParasiteStyleList)
    (hw : self.widget = none) :
    parasite_style_list_fill env self = { self with fill_runs := self.fill_runs + 1 } := by
  obtain ⟨addr, css, model, widget, sc, hd, wr, fr, runs⟩ := self
  simp only at hw
  subst hw
  rfl

theorem fill_view (env : Env) (self : ParasiteStyleList) :
    wiring_view (parasite_style_list_fill env self) = wiring_view self ∧
    (parasite_style_list_fill env self).fill_runs = self.fill_runs + 1 := by
  cases hw : self.widget with
  | none => rw [fill_eq_of_no_widget env self hw]; exact ⟨rfl, rfl⟩
  | some w =>
    rw [fill_eq_of_widget env self w hw]
    exact fill_fold_view env w (added_classes self) known_properties _

theorem fill_rows (env : Env) (self : ParasiteStyleList) (w : Nat)
    (hw : self.widget = some w) :
    List.Forall₂ (RowOk env w (added_classes self)) known_properties
      (parasite_style_list_fill env self).model := by
  rw [fill_eq_of_widget env self w hw]
  obtain ⟨rows, hrows, hall⟩ := fill_fold_model env w (added_classes self) known_properties
    { self with model := [], fill_runs := self.fill_runs + 1 }
  rw [hrows]
  simpa using hall

theorem forall₂_names (env : Env) (w : Nat) (cl : List gstring) (names : List gstring)
    (rows : List Row) (h : List.Forall₂ (RowOk env w cl) names rows) :
    rows.map Row.name = names := by
  induction h with
  | nil => rfl
  | cons hok _ ih => simp [hok.1, ih]

theorem disconnect_model (self : ParasiteStyleList) (a b : Nat) :
    (disconnect_each_other self a b).model = self.model ∧
    (disconnect_each_other self a b).style_classes = self.style_classes ∧
    (disconnect_each_other self a b).addr = self.addr := ⟨rfl, rfl, rfl⟩

theorem set_widget_model (env : Env) (self : ParasiteStyleList) (w : Nat) :
    ∃ s1 : ParasiteStyleList, s1.widget = some w ∧
      s1.style_classes = self.style_classes ∧
      (parasite_style_list_set_widget env self w).model =
        (parasite_style_list_fill env s1).model := by
  unfold parasite_style_list_set_widget
  cases self.widget with
  | none => exact ⟨{ self with widget := some w }, rfl, rfl, rfl⟩
  | some old =>
    exact ⟨{ disconnect_each_other self old self.addr with widget := some w }, rfl, rfl, rfl⟩

/-- C4, the claim as stated fails: when the style engine answers every
property with a section of lines 4..4 that has no file, the first row of the
refreshed model has no value but has the formatted location `"<data>:5"`. -/
theorem C4_data_section_location_counterexample :
    (parasite_style_list_fill env_data_sections
      { parasite_style_list_init 0 with widget := some 1 }).model[0]? =
      some ⟨"-adwaita-border-gradient".toList, none, some "<data>:5".toList⟩ ∧
    (fill_property env_data_sections 1 [] (parasite_style_list_init 0) "color".toList).model =
      [⟨"color".toList, none, some "<data>:5".toList⟩] := by
  decide

/-- C4 as amended: for every known property whose matched section has no
source file, the row appended by the refresh has an absent value, and its
location is present: the location string formatted with the display path
`"<data>"`. -/
theorem C4_data_section_row (env : Env) (self : ParasiteStyleList) (w i : Nat)
    (css_section : GtkCssSection) (hw : self.widget = some w)
    (hi : i < known_properties.length)
    (hsection : env.gtk_style_context_get_section w (added_classes self)
      (known_properties.get ⟨i, hi⟩) = some css_section)
    (hfile : css_section.file = none) :
    (parasite_style_list_fill env self).model[i]? =
      some ⟨known_properties.get ⟨i, hi⟩, none,
        some (location_string "<data>".toList css_section.start_line
          css_section.end_line)⟩ := by
  have hall := fill_rows env self w hw
  obtain ⟨hlen, hget⟩ := List.forall₂_iff_get.mp hall
  have hi2 : i < (parasite_style_list_fill env self).model.length := hlen ▸ hi
  obtain ⟨hname, hloc, hval⟩ := hget i hi hi2
  rw [List.getElem?_eq_getElem hi2]
  simp only [List.get_eq_getElem] at hname hloc hval ⊢
  generalize (parasite_style_list_fill env self).model[i] = row at hname hloc hval
  obtain ⟨rname, rvalue, rloc⟩ := row
  simp only [row_location, row_has_value] at hloc hval
  simp only [List.get_eq_getElem] at hsection
  rw [hsection] at hloc hval
  simp only [display_path, hfile, Option.isSome_none] at hloc hval
  simp only at hname
  cases rvalue with
  | some v => simp at hval
  | none => rw [hname, hloc]

/-- The amended C4 at the row of `"color"` (index 32) when every property has
the file-less section of lines 4..4. -/
theorem C4_data_section_row_witness :
    ({ parasite_style_list_init 0 with widget := some 1 } : ParasiteStyleList).widget
      = some 1 ∧
    env_data_sections.gtk_style_context_get_section 1
      (added_classes { parasite_style_list_init 0 with widget := some 1 })
      (known_properties.get ⟨32, by decide⟩) = some ⟨4, 4, none⟩ ∧
    (parasite_style_list_fill env_data_sections
      { parasite_style_list_init 0 with widget := some 1 }).model[32]? =
      some ⟨known_properties.get ⟨32, by decide⟩, none,
        some (location_string "<data>".toList 4 4)⟩ :=
  ⟨rfl, rfl, C4_data_section_row env_data_sections
    { parasite_style_list_init 0 with widget := some 1 } 1 32 ⟨4, 4, none⟩ rfl (by decide)
    rfl rfl⟩

/-- C5, the claim as stated fails: `parasite_style_list_set_classes` on a panel
that has no widget yet runs `parasite_style_list_fill`, which returns at its
first test; the model then holds no row at all. -/
theorem C5_refresh_without_widget_counterexample :
    (parasite_style_list_set_classes env_unreadable (parasite_style_list_init 0)
      "foo".toList).fill_runs = 1 ∧
    (parasite_style_list_set_classes env_unreadable (parasite_style_list_init 0)
      "foo".toList).model = [] ∧
    (parasite_style_list_set_classes env_unreadable (parasite_style_list_init 0)
      "foo".toList).model.length ≠ known_properties.length := by
  decide

/-- C5 as amended: after every run of `parasite_style_list_fill` on a panel
that observes a widget (run directly, by `set_widget`, by `set_classes` or by
one of the two signal handlers) and whatever the collaborators answer, the
model holds exactly 55 rows, row `i` named `known_properties[i]`, whatever rows
it held before; a run on a panel without widget leaves the model as it was. -/
theorem C5_rows_after_refresh (env : Env) (self : ParasiteStyleList) (w : Nat)
    (hw : self.widget = some w) :
    ((parasite_style_list_fill env self).model.length = 55 ∧
      (parasite_style_list_fill env self).model.map Row.name = known_properties) ∧
    (∀ w2, (parasite_style_list_set_widget env self w2).model.map Row.name
      = known_properties) ∧
    (∀ classes, (parasite_style_list_set_classes env self classes).model.map Row.name
      = known_properties) ∧
    (∀ h : Handler, h.data = self.addr →
      (run_handler env self h).model.map Row.name = known_properties) ∧
    (parasite_style_list_fill env { self with widget := none }).model = self.model := by
  have hfill : ∀ s : ParasiteStyleList, ∀ w1, s.widget = some w1 →
      (parasite_style_list_fill env s).model.map Row.name = known_properties :=
    fun s w1 h => forall₂_names env w1 (added_classes s) _ _ (fill_rows env s w1 h)
  refine ⟨⟨?_, hfill self w hw⟩, ?_, ?_, ?_, ?_⟩
  · have h := (fill_rows env self w hw).length_eq
    rw [← h]
    decide
  · intro w2
    obtain ⟨s1, hs1, _, hm⟩ := set_widget_model env self w2
    rw [hm]
    exact hfill s1 w2 hs1
  · intro classes
    exact hfill _ w hw
  · intro h hd
    unfold run_handler
    rw [if_pos hd]
    cases h.callback <;> exact hfill self w hw
  · rw [fill_eq_of_no_widget env _ rfl]

/-- The amended C5 at a fresh panel that observes widget 1. -/
theorem C5_rows_after_refresh_witness :
    ({ parasite_style_list_init 0 with widget := some 1 } : ParasiteStyleList).widget
      = some 1 ∧
    (parasite_style_list_fill env_data_sections
        { parasite_style_list_init 0 with widget := some 1 }).model.length = 55 ∧
    (parasite_style_list_fill env_data_sections
        { parasite_style_list_init 0 with widget := some 1 }).model.map Row.name
        = known_properties :=
  ⟨rfl, (C5_rows_after_refresh env_data_sections
    { parasite_style_list_init 0 with widget := some 1 } 1 rfl).1⟩

/-! ## Lemmas on the cache -/

theorem lookup_insert (table : List (GFile × Option (List gstring))) (key : GFile)
    (value : Option (List gstring)) :
    g_hash_table_lookup (g_hash_table_insert table key value) key = value := by
  simp [g_hash_table_lookup, g_hash_table_insert]

/-- Once a lookup through the cache has produced a (non-NULL) vector, the next
lookup of the same file gives the same vector and changes nothing: the file is
not read again, whatever the file system has become. -/
theorem css_contents_hit_after_vector (env1 env2 : Env) (self : ParasiteStyleList)
    (file : GFile) (lines : List gstring)
    (h : (css_contents env1 self file).1 = some lines) :
    css_contents env2 (css_contents env1 self file).2 file =
      (some lines, (css_contents env1 self file).2) := by
  have hlook : g_hash_table_lookup (css_contents env1 self file).2.css_files file
      = some lines := by
    unfold css_contents at h ⊢
    cases hl : g_hash_table_lookup self.css_files file with
    | some c =>
      simp only [hl] at h ⊢
      exact h
    | none =>
      simp only [hl] at h ⊢
      rw [lookup_insert, h]
  generalize (css_contents env1 self file).2 = s1 at hlook ⊢
  simp only [css_contents, hlook]

/-- C6 (the code departs from the claim): on a file whose read fails,
`g_strsplit ("", "", -1)` gives NULL, NULL is what gets stored in `css_files`,
and the next lookup of the same file finds NULL and takes it for a miss: the
file is read a second time, and if it has become readable meanwhile the second
lookup uses another line sequence than the first. -/
theorem C6_unreadable_file_is_read_again :
    g_strsplit "".toList "".toList (-1) = none ∧
    after_failed_read.file_reads = [⟨"f"⟩] ∧
    g_hash_table_lookup after_failed_read.css_files ⟨"f"⟩ = none ∧
    (parasite_style_get_css_content env_unreadable after_failed_read ⟨"f"⟩ 0 0).2.file_reads
      = [⟨"f"⟩, ⟨"f"⟩] ∧
    (css_contents env_unreadable (parasite_style_list_init 0) ⟨"f"⟩).1 = none ∧
    (css_contents env_readable after_failed_read ⟨"f"⟩).1 = some ["a:b".toList] := by
  decide

/-- C7: when the cache has no vector for the file and reading the file fails,
`parasite_style_get_css_content` uses a vector of zero lines and returns the
empty string for every `start_line` and `end_line`. -/
theorem C7_read_failure_gives_empty (env : Env) (self : ParasiteStyleList) (file : GFile)
    (start_line end_line : Nat)
    (hmiss : g_hash_table_lookup self.css_files file = none)
    (hfail : env.g_file_load_contents file = none) :
    g_strv_length (css_contents env self file).1 = 0 ∧
    (parasite_style_get_css_content env self file start_line end_line).1 = [] := by
  have hc : (css_contents env self file).1 = none := by
    simp only [css_contents, hmiss, hfail]
    decide
  simp only [parasite_style_get_css_content, hc, g_strv_length, css_property_none]
  exact ⟨trivial, by decide⟩

/-- C7 at a fresh panel, an unreadable file and the range 3..7. -/
theorem C7_read_failure_gives_empty_witness :
    g_hash_table_lookup (parasite_style_list_init 0).css_files ⟨"f"⟩ = none ∧
    env_unreadable.g_file_load_contents ⟨"f"⟩ = none ∧
    g_strv_length (css_contents env_unreadable (parasite_style_list_init 0) ⟨"f"⟩).1 = 0 ∧
    (parasite_style_get_css_content env_unreadable (parasite_style_list_init 0) ⟨"f"⟩
      3 7).1 = [] :=
  ⟨rfl, rfl, C7_read_failure_gives_empty env_unreadable (parasite_style_list_init 0) ⟨"f"⟩
    3 7 rfl rfl⟩

/-! ## Lemmas on the complete split -/

theorem split_all_step_delimiter (ds : gstring) (c : Char) (s cur : gstring) (n : Nat)
    (hc : c ∈ ds) :
    strsplit_set_loop ds none (c :: s) cur n
      = cur :: strsplit_set_loop ds none s [] (n + 1) := by
  simp [strsplit_set_loop, hc]

theorem split_all_step_other (ds : gstring) (c : Char) (s cur : gstring) (n : Nat)
    (hc : c ∉ ds) :
    strsplit_set_loop ds none (c :: s) cur n
      = strsplit_set_loop ds none s (cur ++ [c]) n := by
  simp [strsplit_set_loop, hc]

theorem split_all_ne_nil (ds : gstring) (s : gstring) :
    ∀ (cur : gstring) (n : Nat), strsplit_set_loop ds none s cur n ≠ [] := by
  induction s with
  | nil => intro cur n; simp [strsplit_set_loop]
  | cons c s ih =>
    intro cur n
    by_cases hc : c ∈ ds
    · rw [split_all_step_delimiter ds c s cur n hc]; simp
    · rw [split_all_step_other ds c s cur n hc]; exact ih _ _

theorem rejoin_cons_cons (p : gstring) (ps : List gstring) (d : Char) (ds : List Char)
    (h : ps ≠ []) : rejoin (p :: ps) (d :: ds) = p ++ d :: rejoin ps ds := by
  cases ps with
  | nil => exact absurd rfl h
  | cons q qs => rfl

theorem split_all_length (ds : gstring) (s : gstring) :
    ∀ (cur : gstring) (n : Nat),
      (strsplit_set_loop ds none s cur n).length
        = s.countP (fun c => decide (c ∈ ds)) + 1 := by
  induction s with
  | nil => intro cur n; simp [strsplit_set_loop]
  | cons c s ih =>
    intro cur n
    by_cases hc : c ∈ ds
    · simp [strsplit_set_loop, hc, ih [] (n + 1), List.countP_cons]
    · simp [strsplit_set_loop, hc, ih (cur ++ [c]) n, List.countP_cons]

theorem split_all_delimiter_free (ds : gstring) (s : gstring) :
    ∀ (cur : gstring) (n : Nat), (∀ c ∈ cur, c ∉ ds) →
      ∀ p ∈ strsplit_set_loop ds none s cur n, ∀ c ∈ p, c ∉ ds := by
  induction s with
  | nil =>
    intro cur n hcur p hp
    simp only [strsplit_set_loop, List.mem_singleton] at hp
    rw [hp]; exact hcur
  | cons c s ih =>
    intro cur n hcur p hp
    by_cases hc : c ∈ ds
    · rw [split_all_step_delimiter ds c s cur n hc, List.mem_cons] at hp
      rcases hp with hp | hp
      · rw [hp]; exact hcur
      · exact ih [] (n + 1) (by simp) p hp
    · rw [split_all_step_other ds c s cur n hc] at hp
      refine ih (cur ++ [c]) n ?_ p hp
      intro x hx
      rcases List.mem_append.mp hx with hx | hx
      · exact hcur x hx
      · simp only [List.mem_singleton] at hx
        rw [hx]; exact hc

theorem split_all_rejoin (ds : gstring) (s : gstring) :
    ∀ (cur : gstring) (n : Nat),
      rejoin (strsplit_set_loop ds none s cur n) (s.filter (fun c => decide (c ∈ ds)))
        = cur ++ s := by
  induction s with
  | nil => intro cur n; simp [strsplit_set_loop, rejoin]
  | cons c s ih =>
    intro cur n
    by_cases hc : c ∈ ds
    · rw [split_all_step_delimiter ds c s cur n hc,
        List.filter_cons_of_pos (by simpa using hc),
        rejoin_cons_cons _ _ _ _ (split_all_ne_nil _ _ _ _), ih [] (n + 1)]
      simp
    · rw [split_all_step_other ds c s cur n hc,
        List.filter_cons_of_neg (by simpa using hc), ih (cur ++ [c]) n]
      simp

theorem split_all_eq (classes ds : gstring) (hne : classes ≠ []) :
    g_strsplit_set classes ds (-1) = strsplit_set_loop ds none classes [] 0 := by
  unfold g_strsplit_set
  rw [if_neg hne]
  have h : ((-1 : Int) < 1) := by decide
  rw [if_pos h]

theorem fill_style_classes (env : Env) (self : ParasiteStyleList) :
    (parasite_style_list_fill env self).style_classes = self.style_classes := by
  have h := (fill_view env self).1
  simp only [wiring_view, Prod.mk.injEq] at h
  exact h.2.2.1

/-- C9: `parasite_style_list_set_classes` stores, in place of the previous
filter, the split of its argument on space, comma, semicolon, period and tab
with empty segments kept: for a non-empty argument the stored vector has one
element more than the argument has delimiter characters, no element contains a
delimiter, and the elements interleaved with the delimiter characters in their
order give back the argument; `"foo bar"` gives `["foo", "bar"]` and
`"foo,,bar"` gives `["foo", "", "bar"]`, which contains the empty string. -/
theorem C9_set_classes_split (env : Env) (self : ParasiteStyleList) (classes : gstring)
    (hne : classes ≠ []) :
    (parasite_style_list_set_classes env self classes).style_classes
      = some (g_strsplit_set classes " ,;.\t".toList (-1)) ∧
    (g_strsplit_set classes " ,;.\t".toList (-1)).length
      = classes.countP (fun c => decide (c ∈ " ,;.\t".toList)) + 1 ∧
    (∀ p ∈ g_strsplit_set classes " ,;.\t".toList (-1), ∀ c ∈ p, c ∉ " ,;.\t".toList) ∧
    rejoin (g_strsplit_set classes " ,;.\t".toList (-1))
      (classes.filter (fun c => decide (c ∈ " ,;.\t".toList))) = classes ∧
    (parasite_style_list_set_classes env self "foo bar".toList).style_classes
      = some ["foo".toList, "bar".toList] ∧
    (parasite_style_list_set_classes env self "foo,,bar".toList).style_classes
      = some ["foo".toList, [], "bar".toList] ∧
    ([] : gstring) ∈ g_strsplit_set "foo,,bar".toList " ,;.\t".toList (-1) := by
  have hstore : ∀ c : gstring,
      (parasite_style_list_set_classes env self c).style_classes
        = some (g_strsplit_set c " ,;.\t".toList (-1)) := by
    intro c
    unfold parasite_style_list_set_classes
    rw [fill_style_classes]
  refine ⟨hstore classes, ?_, ?_, ?_, ?_, ?_, by decide⟩
  · rw [split_all_eq classes _ hne]; exact split_all_length _ _ _ _
  · rw [split_all_eq classes _ hne]
    exact split_all_delimiter_free _ _ _ _ (by simp)
  · rw [split_all_eq classes _ hne, split_all_rejoin]
    simp
  · rw [hstore]; decide
  · rw [hstore]; decide

/-- C9 at the argument `"a.b c"`. -/
theorem C9_set_classes_split_witness :
    "a.b c".toList ≠ [] ∧
    (parasite_style_list_set_classes env_unreadable (parasite_style_list_init 0)
      "a.b c".toList).style_classes = some (g_strsplit_set "a.b c".toList " ,;.\t".toList (-1)) ∧
    (g_strsplit_set "a.b c".toList " ,;.\t".toList (-1)).length
      = "a.b c".toList.countP (fun c => decide (c ∈ " ,;.\t".toList)) + 1 :=
  ⟨by decide,
    (C9_set_classes_split env_unreadable (parasite_style_list_init 0) "a.b c".toList
      (by decide)).1,
    (C9_set_classes_split env_unreadable (parasite_style_list_init 0) "a.b c".toList
      (by decide)).2.1⟩

/-! ## Lemmas on the signal wiring -/

theorem set_widget_fields (env : Env) (self : ParasiteStyleList) (w : Nat) :
    (parasite_style_list_set_widget env self w).handlers =
      (parasite_style_list_fill env (retargeted self w)).handlers ++
        connections (parasite_style_list_fill env (retargeted self w)).addr w ∧
    (parasite_style_list_set_widget env self w).widget =
      (parasite_style_list_fill env (retargeted self w)).widget ∧
    (parasite_style_list_set_widget env self w).addr =
      (parasite_style_list_fill env (retargeted self w)).addr :=
  ⟨rfl, rfl, rfl⟩

theorem retargeted_fields (self : ParasiteStyleList) (w : Nat) (h : Wired self) :
    (retargeted self w).handlers = [] ∧ (retargeted self w).widget = some w ∧
    (retargeted self w).addr = self.addr := by
  obtain ⟨addr, css, model, widget, sc, hd, wr, fr, runs⟩ := self
  simp only [Wired] at h
  subst h
  cases widget with
  | none => exact ⟨rfl, rfl, rfl⟩
  | some old =>
    refine ⟨?_, rfl, rfl⟩
    simp [retargeted, disconnect_each_other, connections_of, connections]

theorem fill_fields (env : Env) (self : ParasiteStyleList) :
    (parasite_style_list_fill env self).handlers = self.handlers ∧
    (parasite_style_list_fill env self).widget = self.widget ∧
    (parasite_style_list_fill env self).addr = self.addr := by
  have h := (fill_view env self).1
  simp only [wiring_view, Prod.mk.injEq] at h
  exact ⟨h.2.2.2.1, h.2.1, h.1⟩

theorem set_widget_wiring (env : Env) (self : ParasiteStyleList) (w : Nat)
    (h : Wired self) :
    (parasite_style_list_set_widget env self w).handlers = connections self.addr w ∧
    (parasite_style_list_set_widget env self w).widget = some w ∧
    (parasite_style_list_set_widget env self w).addr = self.addr := by
  obtain ⟨h1, h2, h3⟩ := set_widget_fields env self w
  obtain ⟨f1, f2, f3⟩ := fill_fields env (retargeted self w)
  obtain ⟨r1, r2, r3⟩ := retargeted_fields self w h
  rw [h1, h2, h3, f1, f2, f3, r1, r2, r3]
  exact ⟨rfl, rfl, rfl⟩

theorem emit_fields (env : Env) (hs : List Handler) :
    ∀ self : ParasiteStyleList,
      (hs.foldl (run_handler env) self).handlers = self.handlers ∧
      (hs.foldl (run_handler env) self).widget = self.widget ∧
      (hs.foldl (run_handler env) self).addr = self.addr := by
  induction hs with
  | nil => intro self; exact ⟨rfl, rfl, rfl⟩
  | cons h rest ih =>
    intro self
    rw [List.foldl_cons]
    obtain ⟨i1, i2, i3⟩ := ih (run_handler env self h)
    have hr : (run_handler env self h).handlers = self.handlers ∧
        (run_handler env self h).widget = self.widget ∧
        (run_handler env self h).addr = self.addr := by
      unfold run_handler
      split
      · cases h.callback <;> exact fill_fields env self
      · exact ⟨rfl, rfl, rfl⟩
    rw [i1, i2, i3]
    exact hr

theorem step_fields_of_not_set_widget (self : ParasiteStyleList) (x : Env × Op)
    (hx : ∀ w, x.2 ≠ Op.set_widget w) :
    (step self x).handlers = self.handlers ∧ (step self x).widget = self.widget ∧
    (step self x).addr = self.addr := by
  obtain ⟨env, op⟩ := x
  cases op with
  | set_widget w => exact absurd rfl (hx w)
  | set_classes classes => exact fill_fields env _
  | emit object signal => exact emit_fields env _ self

theorem step_wired (self : ParasiteStyleList) (x : Env × Op) (h : Wired self) :
    Wired (step self x) ∧ (step self x).addr = self.addr := by
  obtain ⟨env, op⟩ := x
  cases op with
  | set_widget w =>
    obtain ⟨h1, h2, h3⟩ := set_widget_wiring env self w h
    refine ⟨?_, h3⟩
    simp only [Wired, step, h1, h2, h3, connections_of]
  | set_classes classes =>
    obtain ⟨h1, h2, h3⟩ := step_fields_of_not_set_widget self (env, Op.set_classes classes)
      (fun w => by simp)
    refine ⟨?_, h3⟩
    simp only [Wired, h1, h2, h3]
    exact h
  | emit object signal =>
    obtain ⟨h1, h2, h3⟩ := step_fields_of_not_set_widget self (env, Op.emit object signal)
      (fun w => by simp)
    refine ⟨?_, h3⟩
    simp only [Wired, h1, h2, h3]
    exact h

theorem run_wired (xs : List (Env × Op)) :
    ∀ self : ParasiteStyleList, Wired self →
      Wired (run self xs) ∧ (run self xs).addr = self.addr := by
  induction xs with
  | nil => intro self h; exact ⟨h, rfl⟩
  | cons x rest ih =>
    intro self h
    obtain ⟨h1, h2⟩ := step_wired self x h
    obtain ⟨i1, i2⟩ := ih (step self x) h1
    exact ⟨i1, i2.trans h2⟩

theorem init_wired (addr : Nat) : Wired (parasite_style_list_init addr) := rfl

theorem run_not_observing (w1 : Nat) (ys : List (Env × Op)) :
    ∀ self : ParasiteStyleList, self.widget ≠ some w1 → Wired self →
      (∀ x ∈ ys, x.2 ≠ Op.set_widget w1) → (run self ys).widget ≠ some w1 := by
  induction ys with
  | nil => intro self h _ _; exact h
  | cons x rest ih =>
    intro self h hwired hys
    have hrest : ∀ y ∈ rest, y.2 ≠ Op.set_widget w1 :=
      fun y hy => hys y (List.mem_cons_of_mem _ hy)
    have hx : x.2 ≠ Op.set_widget w1 := hys x (List.mem_cons_self _ _)
    refine ih (step self x) ?_ (step_wired self x hwired).1 hrest
    obtain ⟨env, op⟩ := x
    cases op with
    | set_widget w =>
      have hw : w ≠ w1 := fun e => hx (by rw [e])
      have h2 := (set_widget_wiring env self w hwired).2.1
      simp only [step, h2, ne_eq, Option.some.injEq]
      exact hw
    | set_classes classes =>
      rw [(step_fields_of_not_set_widget self (env, Op.set_classes classes)
        (fun w => by simp)).2.1]
      exact h
    | emit object signal =>
      rw [(step_fields_of_not_set_widget self (env, Op.emit object signal)
        (fun w => by simp)).2.1]
      exact h

theorem emit_on_unobserved (env : Env) (self : ParasiteStyleList) (w1 : Nat)
    (signal : Signal) (hwired : Wired self) (h : self.widget ≠ some w1) :
    signal_emit env self w1 signal = self := by
  unfold signal_emit
  have hnone : self.handlers.filter (fun h => h.object = w1 && h.signal = signal) = [] := by
    rw [hwired]
    cases hw : self.widget with
    | none => rfl
    | some w =>
      have hne : w ≠ w1 := fun e => h (by rw [hw, e])
      simp [connections_of, connections, hne]
  rw [hnone]
  rfl

/-- C10: in every state that the operations can reach from a fresh panel and
in which `w1` is the observed widget, after
`parasite_style_list_set_widget (self, w2)` with `w2` another widget no handler
whose user data is the panel is connected on `w1`; the connections are exactly
the `style-updated` and the `state-flags-changed` handler on `w2`; and from
then on, as long as `w1` is not made the target again, an emission of either
signal on `w1` runs no handler of the panel: the panel, its count of refreshes
included, stays as it is. -/
theorem C10_replacing_widget_detaches (addr : Nat) (xs : List (Env × Op)) (env : Env)
    (w1 w2 : Nat)
    (hobserved : (run (parasite_style_list_init addr) xs).widget = some w1)
    (hother : w1 ≠ w2) :
    (run (parasite_style_list_init addr) xs).handlers =
      [⟨w1, Signal.style_updated, Callback.widget_style_updated, addr⟩,
       ⟨w1, Signal.state_flags_changed, Callback.widget_state_flags_changed, addr⟩] ∧
    (∀ h ∈ (parasite_style_list_set_widget env
        (run (parasite_style_list_init addr) xs) w2).handlers,
      h.data = addr → h.object ≠ w1) ∧
    (parasite_style_list_set_widget env
        (run (parasite_style_list_init addr) xs) w2).handlers =
      [⟨w2, Signal.style_updated, Callback.widget_style_updated, addr⟩,
       ⟨w2, Signal.state_flags_changed, Callback.widget_state_flags_changed, addr⟩] ∧
    (∀ ys : List (Env × Op), (∀ x ∈ ys, x.2 ≠ Op.set_widget w1) →
      ∀ (env2 : Env) (signal : Signal),
        signal_emit env2 (run (parasite_style_list_set_widget env
          (run (parasite_style_list_init addr) xs) w2) ys) w1 signal =
        run (parasite_style_list_set_widget env
          (run (parasite_style_list_init addr) xs) w2) ys ∧
        (signal_emit env2 (run (parasite_style_list_set_widget env
          (run (parasite_style_list_init addr) xs) w2) ys) w1 signal).fill_runs =
        (run (parasite_style_list_set_widget env
          (run (parasite_style_list_init addr) xs) w2) ys).fill_runs) := by
  obtain ⟨hwired, haddr⟩ := run_wired xs (parasite_style_list_init addr) (init_wired addr)
  have haddr0 : (run (parasite_style_list_init addr) xs).addr = addr := haddr
  obtain ⟨h1, h2, h3⟩ := set_widget_wiring env _ w2 hwired
  rw [haddr0] at h1 h3
  have hwired2 : Wired (parasite_style_list_set_widget env
      (run (parasite_style_list_init addr) xs) w2) := by
    simp only [Wired, h1, h2, h3, connections_of]
  have hw2 : (parasite_style_list_set_widget env
      (run (parasite_style_list_init addr) xs) w2).widget ≠ some w1 := by
    rw [h2]
    intro e
    exact hother (Option.some.inj e).symm
  refine ⟨?_, ?_, h1, ?_⟩
  · have hb : (run (parasite_style_list_init addr) xs).handlers =
        connections_of (run (parasite_style_list_init addr) xs).addr
          (run (parasite_style_list_init addr) xs).widget := hwired
    rw [hb, hobserved, haddr0]
    rfl
  · intro h hmem _
    rw [h1] at hmem
    simp only [connections, List.mem_cons, List.mem_singleton, List.not_mem_nil,
      or_false] at hmem
    rcases hmem with e | e <;> rw [e] <;> exact fun e2 => hother e2.symm
  · intro ys hys env2 signal
    have hq := run_not_observing w1 ys _ hw2 hwired2 hys
    have hw := (run_wired ys _ hwired2).1
    have he := emit_on_unobserved env2 _ w1 signal hw hq
    exact ⟨he, by rw [he]⟩

/-- C10 at the panel of address 7 that observes widget 1 and is retargeted to
widget 2. -/
theorem C10_replacing_widget_detaches_witness :
    (run (parasite_style_list_init 7) [(env_unreadable, Op.set_widget 1)]).widget = some 1 ∧
    (1 : Nat) ≠ 2 ∧
    (parasite_style_list_set_widget env_unreadable
        (run (parasite_style_list_init 7) [(env_unreadable, Op.set_widget 1)]) 2).handlers =
      [⟨2, Signal.style_updated, Callback.widget_style_updated, 7⟩,
       ⟨2, Signal.state_flags_changed, Callback.widget_state_flags_changed, 7⟩] :=
  ⟨by decide, by decide,
    (C10_replacing_widget_detaches 7 [(env_unreadable, Op.set_widget 1)] env_unreadable 1 2
      (by decide) (by decide)).2.2.1⟩

end StyleList
